import Mathlib

/-!
Verification of the agent orchestration loop and the scheduling backend of
the `interactive_agent` repository.

The Python sources are shallowly embedded:

* `src/Agent.py` — message data model (LangChain messages), the turn
  classifier `Agent.next_move`, the tool dispatcher `Agent.act`, and the
  LangGraph state machine built in `Agent.__init__` (nodes `llm` and
  `action`, conditional edges keyed by `Decision`, a fixed edge
  `action → llm`).
* `src/graph.py` — the router `should_continue`.
* `src/main.py` — the scheduling backend's `check_available_time` and the
  `/check_availability` endpoint `check_appointment_availability`.

Python `datetime` values are embedded as a civil-calendar record compared
and shifted through a seconds-since-epoch encoding; LangChain message
`content` (which is either a `str` or a list of content blocks) is embedded
as the sum type `PyContent`.
-/

/-- LangChain message `content`: either a plain string or a list of
content blocks.  Python's `len` is defined on both shapes; the blocks
themselves only matter through their count and the failed
`type(content) is str` test, so each block is kept as its textual form. -/
inductive PyContent where
  | str (s : String)
  | blocks (bs : List String)
deriving DecidableEq, Repr

/-- Python `len(content)`: character count of a string, element count of a
block list. -/
def PyContent.len : PyContent → Nat
  | .str s => s.length
  | .blocks bs => bs.length

/-- One entry of `AIMessage.tool_calls`: the dict
`{'name': …, 'args': …, 'id': …}`.  Arguments are an ordered mapping of
parameter name to (rendered) value. -/
structure ToolCall where
  name : String
  args : List (String × String)
  id : String
deriving DecidableEq, Repr

/-- The fields of a LangChain `AIMessage` read by the agent:
`content` and `tool_calls`. -/
structure AIMessageData where
  content : PyContent
  tool_calls : List ToolCall
deriving DecidableEq, Repr

/-- The fields of a LangChain `ToolMessage` produced by `Agent.act`:
`ToolMessage(tool_call_id=t['id'], name=t['name'], content=str(result))`. -/
structure ToolMessageData where
  tool_call_id : String
  name : String
  content : String
deriving DecidableEq, Repr

/-- `AnyMessage`: the message union stored in `AgentState.messages`. -/
inductive Msg where
  | system (content : String)
  | human (content : String)
  | ai (m : AIMessageData)
  | tool (m : ToolMessageData)
deriving DecidableEq, Repr

/-- `type(llm_message) is AIMessage`. -/
def isAIMessage : Msg → Bool
  | .ai _ => true
  | _ => false

/-- The `Decision` enum of `src/Agent.py` (`THINK = 0`, `ACT = 1`,
`END = 2`). -/
inductive Decision where
  | THINK
  | ACT
  | END
deriving DecidableEq, Repr

/-- `pat` is an initial segment of the second character list. -/
def isPrefixList : List Char → List Char → Bool
  | [], _ => true
  | _ :: _, [] => false
  | a :: as, b :: bs => (a == b) && isPrefixList as bs

/-- Some suffix of the second character list starts with `pat`. -/
def containsSubList (pat : List Char) : List Char → Bool
  | [] => isPrefixList pat []
  | c :: rest => isPrefixList pat (c :: rest) || containsSubList pat rest

/-- Python substring membership `pat in s`. -/
def strContainsSub (s pat : String) : Bool :=
  containsSubList pat.data s.data

/-- Python `str.lower()`, character by character (the sentinel and every
input the claims mention are ASCII, where the two agree). -/
def pyLower (s : String) : String :=
  String.mk (s.data.map Char.toLower)

/-- The guard
`(type(llm_message.content) is str) and ("final state:" in llm_message.content.lower())`
from `Agent.next_move`: the sentinel test is attempted only on string
content; any block-list content fails the `type` test. -/
def sentinelCheck : PyContent → Bool
  | .str s => strContainsSub (pyLower s) "final state:"
  | .blocks _ => false

/-- `Agent.next_move` from `src/Agent.py`, applied to the last message of
the state (the caller passes `state["messages"][-1]`):
if the message is an `AIMessage` then the chain of
`if len(content) > 0 and len(tool_calls) == 0` /
`elif len(tool_calls) > 0 and len(content) == 0` /
`elif len(tool_calls) > 0 and len(content) > 0` branches runs, and any
fall-through (including a non-`AIMessage` last message) returns
`Decision.END`. -/
def next_move (llm_message : Msg) : Decision :=
  match llm_message with
  | .ai m =>
      if m.content.len > 0 ∧ m.tool_calls.length = 0 then
        if sentinelCheck m.content = true then Decision.END
        else Decision.THINK
      else if m.tool_calls.length > 0 ∧ m.content.len = 0 then Decision.ACT
      else if m.tool_calls.length > 0 ∧ m.content.len > 0 then Decision.ACT
      else Decision.END
  | _ => Decision.END

/-- `should_continue` from `src/graph.py`, applied to the last message:
`if isinstance(last_message, AIMessage) and last_message.tool_calls:
return "tools"`, otherwise the LangGraph `END` constant `"__end__"`. -/
def should_continue (last_message : Msg) : String :=
  match last_message with
  | .ai m => if m.tool_calls.isEmpty = false then "tools" else "__end__"
  | _ => "__end__"

/-- Claim C1: an `AgentUtterance` with non-empty `requestedCalls` is always
classified `INVOKE_TOOLS` (`Decision.ACT`, routed `"tools"` by
`should_continue`), never `TERMINATE` (`Decision.END`), even when `text`
is also non-empty and contains the termination sentinel. -/
theorem next_move_invoke_tools_priority (m : AIMessageData)
    (h : m.tool_calls ≠ []) :
    next_move (Msg.ai m) = Decision.ACT
      ∧ next_move (Msg.ai m) ≠ Decision.END
      ∧ should_continue (Msg.ai m) = "tools" := by
  have hlen : m.tool_calls.length ≠ 0 := by
    simpa [List.length_eq_zero] using h
  have hpos : m.tool_calls.length > 0 := Nat.pos_of_ne_zero hlen
  have hact : next_move (Msg.ai m) = Decision.ACT := by
    simp only [next_move]
    split_ifs with h1 h2 h3 h4
    · exact absurd h1.2 hlen
    · exact absurd h1.2 hlen
    · rfl
    · rfl
    · cases Nat.eq_zero_or_pos m.content.len with
      | inl hc => exact absurd ⟨hpos, hc⟩ h3
      | inr hc => exact absurd ⟨hpos, hc⟩ h4
  refine ⟨hact, ?_, ?_⟩
  · rw [hact]; intro hcontra; cases hcontra
  · simp only [should_continue]
    rw [if_pos]
    simpa [List.isEmpty_iff] using h

/-- Claim C1 witness: both sentinel text and one tool call present still
classifies as `ACT`. -/
theorem next_move_invoke_tools_priority_witness :
    next_move (Msg.ai ⟨PyContent.str "FINAL STATE: bye", [⟨"set_appointment", [], "c1"⟩]⟩)
        = Decision.ACT
      ∧ next_move (Msg.ai ⟨PyContent.str "FINAL STATE: bye", [⟨"set_appointment", [], "c1"⟩]⟩)
        ≠ Decision.END
      ∧ should_continue
          (Msg.ai ⟨PyContent.str "FINAL STATE: bye", [⟨"set_appointment", [], "c1"⟩]⟩)
        = "tools" :=
  next_move_invoke_tools_priority
    ⟨PyContent.str "FINAL STATE: bye", [⟨"set_appointment", [], "c1"⟩]⟩
    (by decide)

/-- Claim C3: with no requested calls and non-empty string text, the
classifier returns `TERMINATE` (`Decision.END`) exactly when the
lower-cased text contains the sentinel substring `"final state:"`, and
`CONTINUE_REASONING` (`Decision.THINK`) otherwise. -/
theorem next_move_sentinel_terminates (s : String) (h : s.length > 0) :
    (next_move (Msg.ai ⟨PyContent.str s, []⟩) = Decision.END
        ↔ strContainsSub (pyLower s) "final state:" = true)
      ∧ (strContainsSub (pyLower s) "final state:" = false
        → next_move (Msg.ai ⟨PyContent.str s, []⟩) = Decision.THINK) := by
  have hcond : (PyContent.str s).len > 0 ∧ ([] : List ToolCall).length = 0 := by
    exact ⟨h, rfl⟩
  constructor
  · constructor
    · intro hend
      by_contra hns
      have hfalse : sentinelCheck (PyContent.str s) = false := by
        simpa [sentinelCheck, Bool.not_eq_true] using hns
      simp only [next_move, if_pos hcond, hfalse] at hend
      cases hend
    · intro hsent
      have htrue : sentinelCheck (PyContent.str s) = true := by
        simpa [sentinelCheck] using hsent
      simp only [next_move, if_pos hcond, htrue, if_pos]
  · intro hsent
    have hfalse : sentinelCheck (PyContent.str s) = false := by
      simpa [sentinelCheck] using hsent
    simp only [next_move, if_pos hcond, hfalse]
    simp

/-- Claim C3 witness: the three case variants of the sentinel terminate,
and sentinel-free text keeps reasoning. -/
theorem next_move_sentinel_terminates_witness :
    next_move (Msg.ai ⟨PyContent.str "Final State: done", []⟩) = Decision.END
      ∧ next_move (Msg.ai ⟨PyContent.str "FINAL STATE: done", []⟩) = Decision.END
      ∧ next_move (Msg.ai ⟨PyContent.str "final state: done", []⟩) = Decision.END
      ∧ next_move (Msg.ai ⟨PyContent.str "keep thinking", []⟩) = Decision.THINK := by
  refine ⟨?_, ?_, ?_, ?_⟩
  · exact (next_move_sentinel_terminates "Final State: done" (by decide)).1.mpr (by decide)
  · exact (next_move_sentinel_terminates "FINAL STATE: done" (by decide)).1.mpr (by decide)
  · exact (next_move_sentinel_terminates "final state: done" (by decide)).1.mpr (by decide)
  · exact (next_move_sentinel_terminates "keep thinking" (by decide)).2 (by decide)

/-- Claim C6: the classifier is total and defaults to termination: an
`AgentUtterance` with empty content and no tool calls is classified
`TERMINATE`, and a last message that is not an `AIMessage` at all is also
classified `TERMINATE`. -/
theorem next_move_default_terminate :
    (∀ m : AIMessageData, m.content.len = 0 → m.tool_calls = []
        → next_move (Msg.ai m) = Decision.END)
      ∧ (∀ msg : Msg, isAIMessage msg = false → next_move msg = Decision.END) := by
  constructor
  · intro m hc ht
    simp only [next_move]
    split_ifs with h1 h2 h3 h4
    · exact absurd h1.1 (by omega)
    · exact absurd h1.1 (by omega)
    · exact absurd h3.1 (by simp [ht])
    · exact absurd h4.1 (by simp [ht])
    · rfl
  · intro msg hmsg
    cases msg with
    | ai m => simp [isAIMessage] at hmsg
    | system c => rfl
    | human c => rfl
    | tool m => rfl

/-- Claim C6 witness: an empty agent turn and a non-agent turn both
classify as `END`. -/
theorem next_move_default_terminate_witness :
    next_move (Msg.ai ⟨PyContent.str "", []⟩) = Decision.END
      ∧ next_move (Msg.human "book me a haircut") = Decision.END :=
  ⟨next_move_default_terminate.1 ⟨PyContent.str "", []⟩ rfl rfl,
   next_move_default_terminate.2 (Msg.human "book me a haircut") rfl⟩

/-- Claim C10: when the content of a call-free `AIMessage` is a non-empty
block list rather than a string, the `type(content) is str` guard fails,
so the turn is classified `CONTINUE_REASONING` even if a block's text
contains the sentinel. -/
theorem next_move_nonstring_content_thinks (bs : List String) (h : bs ≠ []) :
    next_move (Msg.ai ⟨PyContent.blocks bs, []⟩) = Decision.THINK := by
  have hlen : (PyContent.blocks bs).len > 0 := by
    have : bs.length ≠ 0 := by simpa [List.length_eq_zero] using h
    simpa [PyContent.len] using Nat.pos_of_ne_zero this
  have hcond : (PyContent.blocks bs).len > 0 ∧ ([] : List ToolCall).length = 0 :=
    ⟨hlen, rfl⟩
  simp only [next_move, if_pos hcond, sentinelCheck]
  simp

/-- Claim C10 witness: a single content block carrying the sentinel text
still classifies as `THINK`. -/
theorem next_move_nonstring_content_thinks_witness :
    next_move (Msg.ai ⟨PyContent.blocks ["final state: done"], []⟩) = Decision.THINK :=
  next_move_nonstring_content_thinks ["final state: done"] (by decide)

/-- A registered tool: an entry of the `tools` list passed to
`Agent.__init__`.  `invoke` is the synchronous call
`self.tools[t['name']].invoke(t['args'])`; a raised exception is embedded
as `Except.error` carrying the exception text. -/
structure ToolDesc where
  name : String
  invoke : List (String × String) → Except String String

/-- `self.tools[name]` on the registry dict
`{ t.name : t for t in tools }` (tool names are distinct in every registry
the program builds, so first-match lookup coincides with the dict). -/
def lookupTool (tools : List ToolDesc) (n : String) : Option ToolDesc :=
  tools.find? (fun t => t.name == n)

/-- The per-call branch of `Agent.act`:
`if not t['name'] in self.tools: result = "bad tool name, retry"
else: result = self.tools[t['name']].invoke(t['args'])`. -/
def resolveCall (tools : List ToolDesc) (t : ToolCall) : Except String String :=
  match lookupTool tools t.name with
  | none => Except.ok "bad tool name, retry"
  | some tl => tl.invoke t.args

/-- The loop of `Agent.act` over `llm_message.tool_calls`: for each call,
in order, resolve and append one `ToolMessage`; a raised exception aborts
the whole loop (`Except.error`), so no result list is produced at all in
that case. -/
def actCalls (tools : List ToolDesc) : List ToolCall → Except String (List ToolMessageData)
  | [] => Except.ok []
  | t :: rest => do
      let result ← resolveCall tools t
      let others ← actCalls tools rest
      Except.ok (⟨t.id, t.name, result⟩ :: others)

/-- `Agent.act` from `src/Agent.py`: on a non-`AIMessage` last message it
returns `None` (no state update); otherwise it returns the `ToolMessage`
list built from `tool_calls`. -/
def act (tools : List ToolDesc) (llm_message : Msg) :
    Except String (Option (List ToolMessageData)) :=
  match llm_message with
  | .ai m => (actCalls tools m.tool_calls).map (fun rs => some rs)
  | _ => Except.ok none

/-- The nodes of the LangGraph state machine compiled in `Agent.__init__`:
`"llm"`, `"action"`, and the `END` vertex. -/
inductive Node where
  | llm
  | action
  | done
deriving DecidableEq, Repr

/-- The conditional-edge table
`{Decision.THINK: "llm", Decision.ACT: "action", Decision.END: END}`. -/
def routeOf : Decision → Node
  | Decision.THINK => Node.llm
  | Decision.ACT => Node.action
  | Decision.END => Node.done

/-- One conversation's LangGraph execution state: the accumulated
`AgentState.messages` channel (merged with `operator.add`, i.e. list
append) and the vertex about to run. -/
structure RunState where
  messages : List Msg
  node : Node
deriving DecidableEq, Repr

/-- The model-facing view built by `Agent.call_model`:
`if self.system: messages = [SystemMessage(content=self.system)] + messages`. -/
def modelView (system : String) (msgs : List Msg) : List Msg :=
  if system ≠ "" then Msg.system system :: msgs else msgs

/-- One step of the compiled graph of `Agent.__init__`, parametrised by
the opaque reasoning collaborator `model` (the bound
`self.model.invoke`) and the tool registry.

* `model_step`: at node `llm`, `call_model` appends the one message the
  collaborator returns, then the conditional edge applies `next_move` to
  the updated state's last message and routes by the edge table.
* `act_step`: at node `action`, `act` returns a result list which is
  appended, and the fixed edge `action → llm` fires.
* `act_skip`: at node `action` with a non-`AIMessage` last message, `act`
  returns `None`, nothing is appended, and the fixed edge fires.

A step in which `act` raises (`Except.error`) does not exist: the
exception propagates out of the graph. -/
inductive Step (system : String) (model : List Msg → AIMessageData)
    (tools : List ToolDesc) : RunState → RunState → Prop where
  | model_step (ms : List Msg) :
      Step system model tools ⟨ms, Node.llm⟩
        ⟨ms ++ [Msg.ai (model (modelView system ms))],
         routeOf (next_move (Msg.ai (model (modelView system ms))))⟩
  | act_step (ms : List Msg) (last : Msg) (results : List ToolMessageData)
      (hlast : ms.getLast? = some last)
      (hact : act tools last = Except.ok (some results)) :
      Step system model tools ⟨ms, Node.action⟩
        ⟨ms ++ results.map Msg.tool, Node.llm⟩
  | act_skip (ms : List Msg) (last : Msg)
      (hlast : ms.getLast? = some last)
      (hact : act tools last = Except.ok none) :
      Step system model tools ⟨ms, Node.action⟩ ⟨ms, Node.llm⟩

/-- Reachability through the compiled graph. -/
def Reach (system : String) (model : List Msg → AIMessageData)
    (tools : List ToolDesc) : RunState → RunState → Prop :=
  Relation.ReflTransGen (Step system model tools)

/-- No step leaves `s`: the graph run aborted at `s`. -/
def Stuck (system : String) (model : List Msg → AIMessageData)
    (tools : List ToolDesc) (s : RunState) : Prop :=
  ∀ s', ¬ Step system model tools s s'

/-- No state reachable from `s` sits at the terminal `END` vertex. -/
def NeverDone (system : String) (model : List Msg → AIMessageData)
    (tools : List ToolDesc) (s : RunState) : Prop :=
  ∀ s', Reach system model tools s s' → s'.node ≠ Node.done

/-- Each produced `ToolMessage` carries the `id` and `name` of its
originating call, in order (shared helper for the dispatcher claims). -/
theorem actCalls_ok_corr (tools : List ToolDesc) :
    ∀ (calls : List ToolCall) (results : List ToolMessageData),
      actCalls tools calls = Except.ok results →
      results.map (fun r => (r.tool_call_id, r.name))
        = calls.map (fun c => (c.id, c.name)) := by
  intro calls
  induction calls with
  | nil =>
      intro results h
      simp only [actCalls] at h
      cases h
      rfl
  | cons t rest ih =>
      intro results h
      simp only [actCalls, bind, Except.bind] at h
      cases hres : resolveCall tools t with
      | error e => rw [hres] at h; cases h
      | ok r =>
          rw [hres] at h
          cases hr : actCalls tools rest with
          | error e => rw [hr] at h; cases h
          | ok os =>
              rw [hr] at h
              cases h
              simpa using ih os hr

/-- If the dispatcher loop completes, it yields exactly as many results as
calls (shared helper). -/
theorem actCalls_ok_length (tools : List ToolDesc) (calls : List ToolCall)
    (results : List ToolMessageData) (h : actCalls tools calls = Except.ok results) :
    results.length = calls.length := by
  have hmap := actCalls_ok_corr tools calls results h
  have := congrArg List.length hmap
  simpa using this

/-- Claim C5: a completed dispatch of a batch of N calls produces exactly
N `ToolMessage`s, in call order, each carrying its originating call's
`id` as `tool_call_id` and its `name`. -/
theorem act_call_result_correlation (tools : List ToolDesc)
    (calls : List ToolCall) (results : List ToolMessageData)
    (h : actCalls tools calls = Except.ok results) :
    results.length = calls.length
      ∧ results.map (fun r => (r.tool_call_id, r.name))
        = calls.map (fun c => (c.id, c.name)) :=
  ⟨actCalls_ok_length tools calls results h, actCalls_ok_corr tools calls results h⟩

/-- Claim C5 witness: a two-call batch (one registered, one unknown)
dispatches to two correlated results. -/
theorem act_call_result_correlation_witness :
    ([⟨"a1", "echo", "done"⟩, ⟨"a2", "missing", "bad tool name, retry"⟩]
        : List ToolMessageData).length
        = ([⟨"echo", [("x", "1")], "a1"⟩, ⟨"missing", [], "a2"⟩] : List ToolCall).length
      ∧ ([⟨"a1", "echo", "done"⟩, ⟨"a2", "missing", "bad tool name, retry"⟩]
          : List ToolMessageData).map (fun r => (r.tool_call_id, r.name))
        = ([⟨"echo", [("x", "1")], "a1"⟩, ⟨"missing", [], "a2"⟩]
          : List ToolCall).map (fun c => (c.id, c.name)) :=
  act_call_result_correlation [⟨"echo", fun _ => Except.ok "done"⟩]
    [⟨"echo", [("x", "1")], "a1"⟩, ⟨"missing", [], "a2"⟩]
    [⟨"a1", "echo", "done"⟩, ⟨"a2", "missing", "bad tool name, retry"⟩]
    rfl

/-- Claim C4: a `ToolCall` whose name is absent from the registry yields
the fixed diagnostic result `"bad tool name, retry"` without invoking any
registered tool (the batch result is the remaining batch's result with
the diagnostic message prepended, whatever the registry's tools do), and
any step taken at the `action` node returns to the `llm` (reasoning)
node, never halting. -/
theorem unknown_tool_recovery (tools : List ToolDesc) (c : ToolCall)
    (rest : List ToolCall) (hname : lookupTool tools c.name = none)
    (system : String) (model : List Msg → AIMessageData) (ms : List Msg)
    (s' : RunState) (hstep : Step system model tools ⟨ms, Node.action⟩ s') :
    actCalls tools (c :: rest)
        = (actCalls tools rest).map
            (fun others =>
              (⟨c.id, c.name, "bad tool name, retry"⟩ : ToolMessageData) :: others)
      ∧ s'.node = Node.llm := by
  have hres : resolveCall tools c = Except.ok "bad tool name, retry" := by
    simp only [resolveCall, hname]
  constructor
  · simp only [actCalls, hres, bind, Except.bind]
    cases hr : actCalls tools rest with
    | error e => rfl
    | ok os => rfl
  · cases hstep with
    | act_step ms last results hlast hact => rfl
    | act_skip ms last hlast hact => rfl

/-- Claim C4 witness: an unknown tool call against the empty registry
produces the diagnostic result and the graph steps back to `llm`. -/
theorem unknown_tool_recovery_witness :
    actCalls ([] : List ToolDesc) [⟨"nope", [], "id1"⟩]
        = (actCalls ([] : List ToolDesc) []).map
            (fun others =>
              (⟨"id1", "nope", "bad tool name, retry"⟩ : ToolMessageData) :: others)
      ∧ (⟨[Msg.ai ⟨PyContent.str "", [⟨"nope", [], "id1"⟩]⟩,
           Msg.tool ⟨"id1", "nope", "bad tool name, retry"⟩],
          Node.llm⟩ : RunState).node = Node.llm :=
  unknown_tool_recovery [] ⟨"nope", [], "id1"⟩ [] rfl
    "" (fun _ => ⟨PyContent.str "", []⟩)
    [Msg.ai ⟨PyContent.str "", [⟨"nope", [], "id1"⟩]⟩]
    ⟨[Msg.ai ⟨PyContent.str "", [⟨"nope", [], "id1"⟩]⟩,
      Msg.tool ⟨"id1", "nope", "bad tool name, retry"⟩], Node.llm⟩
    (Step.act_step [Msg.ai ⟨PyContent.str "", [⟨"nope", [], "id1"⟩]⟩]
      (Msg.ai ⟨PyContent.str "", [⟨"nope", [], "id1"⟩]⟩)
      [⟨"id1", "nope", "bad tool name, retry"⟩] rfl rfl)

/-- Only the `Decision.ACT` edge leads to the `action` node. -/
theorem routeOf_eq_action (d : Decision) (h : routeOf d = Node.action) :
    d = Decision.ACT := by
  cases d with
  | THINK => cases h
  | ACT => rfl
  | END => cases h

/-- The classifier answers `ACT` only on a turn that carries tool calls
(shared helper). -/
theorem next_move_act_has_calls (m : AIMessageData)
    (h : next_move (Msg.ai m) = Decision.ACT) : m.tool_calls ≠ [] := by
  intro hnil
  have hlen : m.tool_calls.length = 0 := by simp [hnil]
  have h0 : ¬ (m.tool_calls.length > 0 ∧ m.content.len = 0) := by omega
  have h1 : ¬ (m.tool_calls.length > 0 ∧ m.content.len > 0) := by omega
  simp only [next_move, if_neg h0, if_neg h1] at h
  by_cases hc : m.content.len > 0 ∧ m.tool_calls.length = 0
  · rw [if_pos hc] at h
    by_cases hs : sentinelCheck m.content = true
    · rw [if_pos hs] at h; cases h
    · rw [if_neg hs] at h; cases h
  · rw [if_neg hc] at h; cases h

/-- In any run started at the `llm` entry point, whenever the `action`
node is about to run, the last transcript entry is an `AIMessage`
carrying at least one tool call (shared helper: the graph only routes to
`action` through the `Decision.ACT` edge). -/
theorem reach_action_has_calls (system : String)
    (model : List Msg → AIMessageData) (tools : List ToolDesc)
    (ms0 : List Msg) (s : RunState)
    (h : Reach system model tools ⟨ms0, Node.llm⟩ s) :
    s.node = Node.action →
      ∃ m, s.messages.getLast? = some (Msg.ai m) ∧ m.tool_calls ≠ [] := by
  induction h with
  | refl => intro hn; cases hn
  | tail hab hbc ih =>
      intro hn
      cases hbc with
      | model_step ms =>
          have hd : next_move (Msg.ai (model (modelView system ms))) = Decision.ACT :=
            routeOf_eq_action _ hn
          exact ⟨model (modelView system ms),
                 by rw [List.getLast?_concat],
                 next_move_act_has_calls _ hd⟩
      | act_step ms last results hlast hact => cases hn
      | act_skip ms last hlast hact => cases hn

/-- On an `AIMessage`, `act` never returns `None`; a completed `act`
returns exactly the loop's results (shared helper). -/
theorem act_ai_ok (tools : List ToolDesc) (m : AIMessageData)
    (results : List ToolMessageData)
    (h : act tools (Msg.ai m) = Except.ok (some results)) :
    actCalls tools m.tool_calls = Except.ok results := by
  simp only [act] at h
  cases hr : actCalls tools m.tool_calls with
  | error e => rw [hr] at h; cases h
  | ok os =>
      rw [hr] at h
      simp only [Except.map] at h
      cases h
      rfl

/-- On an `AIMessage`, `act` cannot return the `None` no-update marker
(shared helper). -/
theorem act_ai_not_none (tools : List ToolDesc) (m : AIMessageData)
    (h : act tools (Msg.ai m) = Except.ok none) : False := by
  simp only [act] at h
  cases hr : actCalls tools m.tool_calls with
  | error e => rw [hr] at h; cases h
  | ok os => rw [hr] at h; simp [Except.map] at h

/-- Claim C8: along any run of the compiled graph from the `llm` entry
point, every step (a `call_model` visit or an `act` visit) strictly
extends the transcript: the messages before the step are a proper prefix
of the messages after it, so no existing turn is mutated or removed. -/
theorem transcript_append_only (system : String)
    (model : List Msg → AIMessageData) (tools : List ToolDesc)
    (ms0 : List Msg) (s s' : RunState)
    (hreach : Reach system model tools ⟨ms0, Node.llm⟩ s)
    (hstep : Step system model tools s s') :
    s.messages <+: s'.messages ∧ s.messages ≠ s'.messages := by
  cases hstep with
  | model_step ms =>
      refine ⟨⟨[Msg.ai (model (modelView system ms))], rfl⟩, ?_⟩
      intro heq
      have hlen := congrArg List.length heq
      simp at hlen
  | act_step ms last results hlast hact =>
      obtain ⟨m, hlast2, hcalls⟩ :=
        reach_action_has_calls system model tools ms0 _ hreach rfl
      rw [hlast] at hlast2
      cases hlast2
      have hac := act_ai_ok tools m results hact
      have hlen := actCalls_ok_length tools m.tool_calls results hac
      have hres : results ≠ [] := by
        intro hnil
        apply hcalls
        rw [hnil] at hlen
        exact List.length_eq_zero.mp hlen.symm
      refine ⟨⟨results.map Msg.tool, rfl⟩, ?_⟩
      intro heq
      have := congrArg List.length heq
      simp only [List.length_append, List.length_map] at this
      exact hres (List.length_eq_zero.mp (by omega))
  | act_skip ms last hlast hact =>
      obtain ⟨m, hlast2, hcalls⟩ :=
        reach_action_has_calls system model tools ms0 _ hreach rfl
      rw [hlast] at hlast2
      cases hlast2
      exact absurd hact (fun hh => act_ai_not_none tools m hh)

/-- Claim C8 witness: the first model step strictly extends the seed
transcript. -/
theorem transcript_append_only_witness :
    ([Msg.human "hi"] : List Msg)
        <+: [Msg.human "hi", Msg.ai ⟨PyContent.str "ok", []⟩]
      ∧ ([Msg.human "hi"] : List Msg)
        ≠ [Msg.human "hi", Msg.ai ⟨PyContent.str "ok", []⟩] :=
  transcript_append_only "" (fun _ => ⟨PyContent.str "ok", []⟩) []
    [Msg.human "hi"]
    ⟨[Msg.human "hi"], Node.llm⟩
    ⟨[Msg.human "hi", Msg.ai ⟨PyContent.str "ok", []⟩], Node.llm⟩
    Relation.ReflTransGen.refl
    (Step.model_step [Msg.human "hi"])

/-- If some call in the batch resolves to a registered tool whose `invoke`
raises, the dispatcher loop as a whole raises (shared helper): the first
raising call aborts it. -/
theorem actCalls_error_of_invoke_error (tools : List ToolDesc) :
    ∀ (calls : List ToolCall) (i : Nat) (hi : i < calls.length)
      (tl : ToolDesc) (e : String),
      lookupTool tools (calls.get ⟨i, hi⟩).name = some tl →
      tl.invoke (calls.get ⟨i, hi⟩).args = Except.error e →
      ∃ e', actCalls tools calls = Except.error e' := by
  intro calls
  induction calls with
  | nil => intro i hi; cases hi
  | cons t rest ih =>
      intro i hi tl e hfound herr
      cases hres : resolveCall tools t with
      | error e0 =>
          refine ⟨e0, ?_⟩
          simp only [actCalls, hres, bind, Except.bind]
      | ok r =>
          cases i with
          | zero =>
              exfalso
              simp only [List.get] at hfound herr
              simp only [resolveCall, hfound, herr] at hres
              cases hres
          | succ j =>
              have hj : j < rest.length := Nat.lt_of_succ_lt_succ hi
              obtain ⟨e', he'⟩ := ih j hj tl e hfound herr
              refine ⟨e', ?_⟩
              simp only [actCalls, hres, he', bind, Except.bind]

/-- Claim C7: if a registered tool's `invoke` raises during dispatch, the
dispatcher catches nothing: `act` raises (so no `ToolResult` is produced
for the raising call or any other call of the batch), the graph has no
step out of the `action` node, and no reachable state is the terminal
`DONE` node — the run aborts without terminating normally. -/
theorem tool_exception_aborts (system : String)
    (model : List Msg → AIMessageData) (tools : List ToolDesc)
    (ms : List Msg) (m : AIMessageData) (i : Nat)
    (hi : i < m.tool_calls.length) (tl : ToolDesc) (e : String)
    (hlast : ms.getLast? = some (Msg.ai m))
    (hfound : lookupTool tools (m.tool_calls.get ⟨i, hi⟩).name = some tl)
    (herr : tl.invoke (m.tool_calls.get ⟨i, hi⟩).args = Except.error e) :
    (∃ e', act tools (Msg.ai m) = Except.error e')
      ∧ Stuck system model tools ⟨ms, Node.action⟩
      ∧ NeverDone system model tools ⟨ms, Node.action⟩ := by
  obtain ⟨e', he'⟩ :=
    actCalls_error_of_invoke_error tools m.tool_calls i hi tl e hfound herr
  have hacterr : act tools (Msg.ai m) = Except.error e' := by
    simp only [act, he', Except.map]
  have hstuck : Stuck system model tools ⟨ms, Node.action⟩ := by
    intro s' hstep
    cases hstep with
    | act_step ms' last results hlast' hact =>
        rw [hlast] at hlast'
        cases hlast'
        rw [hacterr] at hact
        cases hact
    | act_skip ms' last hlast' hact =>
        rw [hlast] at hlast'
        cases hlast'
        rw [hacterr] at hact
        cases hact
  refine ⟨⟨e', hacterr⟩, hstuck, ?_⟩
  intro s' hr
  cases Relation.ReflTransGen.cases_head hr with
  | inl heq =>
      rw [← heq]
      intro hn
      cases hn
  | inr hex =>
      obtain ⟨b, hb, _⟩ := hex
      exact absurd hb (hstuck b)

/-- Claim C7 witness: a registry whose single tool raises `"network down"`
makes the graph abort at the `action` node. -/
theorem tool_exception_aborts_witness :
    (∃ e', act [⟨"boom", fun _ => Except.error "network down"⟩]
        (Msg.ai ⟨PyContent.str "", [⟨"boom", [], "b1"⟩]⟩) = Except.error e')
      ∧ Stuck "" (fun _ => ⟨PyContent.str "", []⟩)
          [⟨"boom", fun _ => Except.error "network down"⟩]
          ⟨[Msg.ai ⟨PyContent.str "", [⟨"boom", [], "b1"⟩]⟩], Node.action⟩
      ∧ NeverDone "" (fun _ => ⟨PyContent.str "", []⟩)
          [⟨"boom", fun _ => Except.error "network down"⟩]
          ⟨[Msg.ai ⟨PyContent.str "", [⟨"boom", [], "b1"⟩]⟩], Node.action⟩ :=
  tool_exception_aborts "" (fun _ => ⟨PyContent.str "", []⟩)
    [⟨"boom", fun _ => Except.error "network down"⟩]
    [Msg.ai ⟨PyContent.str "", [⟨"boom", [], "b1"⟩]⟩]
    ⟨PyContent.str "", [⟨"boom", [], "b1"⟩]⟩
    0 (Nat.zero_lt_succ 0)
    ⟨"boom", fun _ => Except.error "network down"⟩
    "network down" rfl rfl rfl

/-- A parsed Python `datetime` (the fields `dateutil.parser.parse`
produces for the backend's second-resolution ISO strings). -/
structure PyDateTime where
  year : Int
  month : Int
  day : Int
  hour : Int
  minute : Int
  second : Int
deriving DecidableEq, Repr

/-- Days from 1970-01-01 of a civil date (the standard days-from-civil
computation the Python `datetime` ordinal arithmetic realises). -/
def daysFromCivil (y m d : Int) : Int :=
  let y2 := if m ≤ 2 then y - 1 else y
  let era := y2.fdiv 400
  let yoe := y2 - era * 400
  let mp := (m + 9).fmod 12
  let doy := (153 * mp + 2).fdiv 5 + d - 1
  let doe := yoe * 365 + yoe.fdiv 4 - yoe.fdiv 100 + doy
  era * 146097 + doe - 719468

/-- Inverse of `daysFromCivil`: the civil date of a day number. -/
def civilFromDays (z : Int) : Int × Int × Int :=
  let z2 := z + 719468
  let era := z2.fdiv 146097
  let doe := z2 - era * 146097
  let yoe := (doe - doe.fdiv 1460 + doe.fdiv 36524 - doe.fdiv 146096).fdiv 365
  let y := yoe + era * 400
  let doy := doe - (365 * yoe + yoe.fdiv 4 - yoe.fdiv 100)
  let mp := (5 * doy + 2).fdiv 153
  let d := doy - (153 * mp + 2).fdiv 5 + 1
  let m := if mp < 10 then mp + 3 else mp - 9
  (if m ≤ 2 then y + 1 else y, m, d)

/-- Seconds from the epoch; Python `datetime` comparison is chronological,
i.e. comparison of this value on valid dates. -/
def toSeconds (dt : PyDateTime) : Int :=
  daysFromCivil dt.year dt.month dt.day * 86400
    + dt.hour * 3600 + dt.minute * 60 + dt.second

/-- The `datetime` with the given count of seconds from the epoch. -/
def ofSeconds (secs : Int) : PyDateTime :=
  let days := secs.fdiv 86400
  let rem := secs.fmod 86400
  let c := civilFromDays days
  ⟨c.1, c.2.1, c.2.2, rem.fdiv 3600, (rem.fmod 3600).fdiv 60, rem.fmod 60⟩

/-- Python `dt + timedelta(minutes=m)` (also used for the ±2-hour window,
`timedelta(hours=2)` being 120 minutes). -/
def addMinutes (dt : PyDateTime) (m : Int) : PyDateTime :=
  ofSeconds (toSeconds dt + m * 60)

/-- `'0'`–`'9'` for 0–9. -/
def digitChar (n : Nat) : Char :=
  Char.ofNat (48 + n)

/-- Two-digit zero-padded rendering of a field value. -/
def pad2 (n : Int) : String :=
  String.mk [digitChar ((n.toNat / 10) % 10), digitChar (n.toNat % 10)]

/-- Four-digit zero-padded rendering of a year. -/
def pad4 (n : Int) : String :=
  String.mk [digitChar ((n.toNat / 1000) % 10), digitChar ((n.toNat / 100) % 10),
             digitChar ((n.toNat / 10) % 10), digitChar (n.toNat % 10)]

/-- Python `datetime.isoformat()` at second resolution:
`YYYY-MM-DDTHH:MM:SS`. -/
def isoformat (dt : PyDateTime) : String :=
  pad4 dt.year ++ "-" ++ pad2 dt.month ++ "-" ++ pad2 dt.day ++ "T"
    ++ pad2 dt.hour ++ ":" ++ pad2 dt.minute ++ ":" ++ pad2 dt.second

/-- Split a character list at every occurrence of `c`. -/
def splitOnChar (c : Char) : List Char → List (List Char)
  | [] => [[]]
  | x :: xs =>
      let r := splitOnChar c xs
      if x == c then [] :: r
      else
        match r with
        | [] => [[x]]
        | hd :: tl => (x :: hd) :: tl

/-- Parse a non-empty all-digit character list as a decimal number. -/
def digitsToNat : List Char → Option Nat
  | [] => none
  | l =>
      l.foldl
        (fun acc c =>
          match acc with
          | none => none
          | some n => if c.isDigit then some (n * 10 + (c.toNat - 48)) else none)
        (some 0)

/-- Days of a month in the proleptic Gregorian calendar. -/
def daysInMonth (y m : Int) : Int :=
  if m = 2 then
    if y.fmod 4 = 0 ∧ (y.fmod 100 ≠ 0 ∨ y.fmod 400 = 0) then 29 else 28
  else if m = 4 ∨ m = 6 ∨ m = 9 ∨ m = 11 then 30
  else 31

/-- `dateutil.parser.parse` restricted to the backend's
`YYYY-MM-DDTHH:MM:SS` ISO strings (the only shape the service reads and
writes); any other input is a parse failure (`None` embeds the raised
`ParserError`). -/
def parseISO (s : String) : Option PyDateTime :=
  match splitOnChar 'T' s.data with
  | [datePart, timePart] =>
      match splitOnChar '-' datePart, splitOnChar ':' timePart with
      | [ys, mos, ds], [hs, mis, ss] =>
          match digitsToNat ys, digitsToNat mos, digitsToNat ds,
              digitsToNat hs, digitsToNat mis, digitsToNat ss with
          | some y, some mo, some d, some h, some mi, some sec =>
              if 1 ≤ (mo : Int) ∧ (mo : Int) ≤ 12
                  ∧ 1 ≤ (d : Int) ∧ (d : Int) ≤ daysInMonth y mo
                  ∧ (h : Int) ≤ 23 ∧ (mi : Int) ≤ 59 ∧ (sec : Int) ≤ 59 then
                some ⟨y, mo, d, h, mi, sec⟩
              else none
          | _, _, _, _, _, _ => none
      | _, _ => none
  | _ => none

/-- Lexicographic (codepoint) order on character lists. -/
def listLexLe : List Char → List Char → Bool
  | [], _ => true
  | _ :: _, [] => false
  | a :: as, b :: bs =>
      if a.toNat < b.toNat then true
      else if b.toNat < a.toNat then false
      else listLexLe as bs

/-- SQLite TEXT comparison (byte-wise, which on these ASCII ISO strings is
codepoint-lexicographic): the order behind the SQL `BETWEEN`. -/
def strLe (a b : String) : Bool :=
  listLexLe a.data b.data

/-- The `Appointment` SQLModel row of `src/main.py`. -/
structure Appointment where
  id : Option Int
  name : String
  operation : String
  created_date : String
  expected_duration : Int
  appointment_datetime : String
  branch : Int
deriving DecidableEq, Repr

/-- The `for appointment in appointments:` loop of `check_available_time`:
parse the stored datetime, test the overlap condition (returning the
conflict tuple, through the code's redundant `requested_dt <
appointment_dt` split whose two branches build the same message), then
test whether the stored appointment starts strictly inside the requested
interval, and otherwise continue; an exhausted loop reports availability. -/
def availLoop (requested_dt requested_end_dt : PyDateTime) :
    List Appointment → Option (Bool × Option String × Option String)
  | [] => some (true, none, none)
  | a :: rest => do
      let appointment_dt ← parseISO a.appointment_datetime
      let appointment_end_dt := addMinutes appointment_dt a.expected_duration
      if (toSeconds requested_dt ≤ toSeconds appointment_end_dt
            ∧ toSeconds requested_end_dt ≥ toSeconds appointment_dt)
          ∨ (toSeconds appointment_dt ≤ toSeconds requested_end_dt
            ∧ toSeconds appointment_end_dt ≥ toSeconds requested_dt) then
        if toSeconds requested_dt < toSeconds appointment_dt then
          some (false, some ("Conflict arose with " ++ a.appointment_datetime),
                some (isoformat appointment_end_dt))
        else
          some (false, some ("Conflict arose with " ++ a.appointment_datetime),
                some (isoformat appointment_end_dt))
      else if toSeconds appointment_dt > toSeconds requested_dt
          ∧ toSeconds appointment_dt < toSeconds requested_end_dt then
        some (false,
              some ("Another appointment starts during " ++ a.appointment_datetime),
              some (isoformat appointment_end_dt))
      else
        availLoop requested_dt requested_end_dt rest

/-- `check_available_time` from `src/main.py`: parse the request, form the
half-window bounds `requested_dt ± timedelta(hours=2)`, pre-filter the
stored rows by the SQL `BETWEEN` on the ISO strings (inclusive
lexicographic string comparison, which on these fixed-width ISO strings is
chronological order), and run the overlap loop.  `none` embeds a raised
parse exception. -/
def check_available_time (db : List Appointment) (requested_datetime : String)
    (duration : Int) : Option (Bool × Option String × Option String) := do
  let requested_dt ← parseISO requested_datetime
  let requested_end_dt := addMinutes requested_dt duration
  let lo := isoformat (addMinutes requested_dt (-120))
  let hi := isoformat (addMinutes requested_dt 120)
  let appointments := db.filter (fun a =>
    strLe lo a.appointment_datetime && strLe a.appointment_datetime hi)
  availLoop requested_dt requested_end_dt appointments

/-- Python `f"{x}"` on `response[2] : Optional[str]`. -/
def renderPyOpt : Option String → String
  | none => "None"
  | some s => s

/-- The `/check_availability` endpoint `check_appointment_availability`
from `src/main.py`: the availability or conflict message built from
`check_available_time`'s tuple. -/
def check_appointment_availability (db : List Appointment) (dt : String)
    (duration : Int) : Option String := do
  let response ← check_available_time db dt duration
  if response.1 then
    some ("Yes, you can order at " ++ dt ++ ". Your operation is expected to take "
          ++ toString duration ++ " minutes.")
  else
    some ("Sorry, there is a conflict of appointment at " ++ dt
          ++ ". However we suggest you to order at " ++ renderPyOpt response.2.2 ++ ".")

/-- The stored appointment of the conflict-boundary scenario:
2025-01-07T10:00:00, 90 minutes. -/
def boundaryDb : List Appointment :=
  [⟨none, "Guest Anonymous", "Trimming hair length shorter",
    "07/01/2025, 09:00:00", 90, "2025-01-07T10:00:00", 1⟩]

/-- Claim C2 counterexample: the request touching the stored appointment's
end exactly (2025-01-07T11:30:00 for 60 minutes against
2025-01-07T10:00:00 + 90 minutes) is reported as a conflict, not as
available: the backend's overlap comparisons are closed
(`requested_dt <= appointment_end_dt and requested_end_dt >= appointment_dt`),
so touching endpoints do conflict. -/
theorem conflict_touching_endpoints_counterexample :
    (check_available_time boundaryDb "2025-01-07T11:30:00" 60).map (fun r => r.1)
        = some false
      ∧ check_appointment_availability boundaryDb "2025-01-07T11:30:00" 60
        = some ("Sorry, there is a conflict of appointment at 2025-01-07T11:30:00."
            ++ " However we suggest you to order at 2025-01-07T11:30:00.") := by
  constructor
  · decide
  · decide

/-- Claim C2 amended: with the stored appointment 2025-01-07T10:00:00 for
90 minutes, the touching request at 11:30:00 for 60 minutes is reported
as conflicting with suggested alternative 2025-01-07T11:30:00 (touching
endpoints conflict under the backend's closed-endpoint overlap rule); the
request shifted to 11:00:00 is likewise conflicting with suggested
alternative 11:30:00; a request clear of the stored interval
(12:00:00) is reported available. -/
theorem conflict_boundary_policy :
    check_appointment_availability boundaryDb "2025-01-07T11:30:00" 60
        = some ("Sorry, there is a conflict of appointment at 2025-01-07T11:30:00."
            ++ " However we suggest you to order at 2025-01-07T11:30:00.")
      ∧ check_appointment_availability boundaryDb "2025-01-07T11:00:00" 60
        = some ("Sorry, there is a conflict of appointment at 2025-01-07T11:00:00."
            ++ " However we suggest you to order at 2025-01-07T11:30:00.")
      ∧ check_appointment_availability boundaryDb "2025-01-07T12:00:00" 60
        = some ("Yes, you can order at 2025-01-07T12:00:00."
            ++ " Your operation is expected to take 60 minutes.") := by
  refine ⟨?_, ?_, ?_⟩
  · decide
  · decide
  · decide

/-- The stored appointment exercising the starts-during branch: its start
lies strictly inside the requested interval while its (negative) duration
keeps the closed-endpoint overlap test false. -/
def startsDuringDb : List Appointment :=
  [⟨none, "Guest Anonymous", "Trimming hair length shorter",
    "07/01/2025, 09:00:00", -120, "2025-01-07T11:00:00", 1⟩]

/-- Claim C9: the backend distinguishes, besides plain interval overlap,
the case of a stored appointment starting strictly inside the requested
interval, and for the request 2025-01-07T10:00:00 for 120 minutes against
a stored appointment starting 2025-01-07T11:00:00 with duration -120
minutes this distinct flag is exactly the message returned: the stored
start is strictly after the requested start and strictly before its end,
and the response is the `"Another appointment starts during …"` message,
distinct from the plain-overlap `"Conflict arose with …"` message. -/
theorem starts_during_flag :
    check_available_time startsDuringDb "2025-01-07T10:00:00" 120
        = some (false,
            some "Another appointment starts during 2025-01-07T11:00:00",
            some "2025-01-07T09:00:00")
      ∧ (∃ rd ad, parseISO "2025-01-07T10:00:00" = some rd
          ∧ parseISO "2025-01-07T11:00:00" = some ad
          ∧ toSeconds rd < toSeconds ad
          ∧ toSeconds ad < toSeconds (addMinutes rd 120))
      ∧ ("Another appointment starts during 2025-01-07T11:00:00"
          ≠ "Conflict arose with 2025-01-07T11:00:00") := by
  refine ⟨?_, ?_, ?_⟩
  · decide
  · exact ⟨⟨2025, 1, 7, 10, 0, 0⟩, ⟨2025, 1, 7, 11, 0, 0⟩, rfl, rfl,
      by decide, by decide⟩
  · decide
